import Mathlib

/-!
Shallow embedding of `scripts/generate_options_heuristics.py` (the candidate
generation core: strike rounding, expiration resolution, wildcard selection,
and the 8-candidate generator).

Dates are modelled as day numbers (days since 1970-01-01, the epoch of the
proleptic Gregorian calendar used by Python's `datetime.date`), with
conversions between day numbers and civil (year, month, day) triples.
Python `date.weekday()` returns Monday = 0 .. Sunday = 6; 1970-01-01 was a
Thursday (weekday 3).

Prices and strikes are modelled as exact rationals; Python's builtin `round`
(round half to even) is modelled by `pyround`.  For the single spot where
binary64 rounding observably changes the program's output (the percentage
printed in candidate 8's description, `int((1 - random_otm) * 100)`), the
IEEE-754 binary64 evaluation of that expression is modelled explicitly by
`fl` / `wildcardPct`.
-/

namespace EquityData

/-- Civil (year, month, day) to day number since 1970-01-01 (Hinnant's
`days_from_civil` algorithm, with floor division). -/
def daysFromCivil (y m d : ℤ) : ℤ :=
  let y' : ℤ := if m ≤ 2 then y - 1 else y
  let era : ℤ := Int.fdiv y' 400
  let yoe : ℤ := y' - era * 400
  let mp : ℤ := (m + 9) % 12
  let doy : ℤ := Int.fdiv (153 * mp + 2) 5 + d - 1
  let doe : ℤ := yoe * 365 + Int.fdiv yoe 4 - Int.fdiv yoe 100 + doy
  era * 146097 + doe - 719468

/-- Day number since 1970-01-01 to civil (year, month, day) (Hinnant's
`civil_from_days` algorithm, with floor division). -/
def civilFromDays (z : ℤ) : ℤ × ℤ × ℤ :=
  let z' : ℤ := z + 719468
  let era : ℤ := Int.fdiv z' 146097
  let doe : ℤ := z' - era * 146097
  let yoe : ℤ := Int.fdiv (doe - Int.fdiv doe 1460 + Int.fdiv doe 36524 - Int.fdiv doe 146096) 365
  let y : ℤ := yoe + era * 400
  let doy : ℤ := doe - (365 * yoe + Int.fdiv yoe 4 - Int.fdiv yoe 100)
  let mp : ℤ := Int.fdiv (5 * doy + 2) 153
  let d : ℤ := doy - Int.fdiv (153 * mp + 2) 5 + 1
  let m : ℤ := if mp < 10 then mp + 3 else mp - 9
  (if m ≤ 2 then y + 1 else y, m, d)

def yearOf (z : ℤ) : ℤ := (civilFromDays z).1

def monthOf (z : ℤ) : ℤ := (civilFromDays z).2.1

def dayOf (z : ℤ) : ℤ := (civilFromDays z).2.2

/-- Python `date.weekday()`: Monday = 0 .. Sunday = 6. -/
def weekday (z : ℤ) : ℤ := (z + 3) % 7

/-- Python `datetime.timetuple().tm_yday`: 1-based day of the year. -/
def dayOfYear (z : ℤ) : ℤ := z - daysFromCivil (yearOf z) 1 1 + 1

/-- Zero-padded two-digit rendering used by `strftime` for `%m` and `%d`. -/
def pad2 (n : ℤ) : String := if n < 10 then "0" ++ toString n else toString n

/-- Model of `strftime('%Y-%m-%d')` on the date with day number `z` (years here
are four-digit, so `%Y` needs no extra padding). -/
def isoDate (z : ℤ) : String :=
  toString (yearOf z) ++ "-" ++ pad2 (monthOf z) ++ "-" ++ pad2 (dayOf z)

/-- Python's builtin `round` on a rational: nearest integer, ties to even. -/
def pyround (q : ℚ) : ℤ :=
  if q - ⌊q⌋ < 1 / 2 then ⌊q⌋
  else if 1 / 2 < q - ⌊q⌋ then ⌊q⌋ + 1
  else if ⌊q⌋ % 2 = 0 then ⌊q⌋ else ⌊q⌋ + 1

/-- Model of `round_strike(price, strike_value)`: round `strike_value` to the
nearest standard increment for the `price` tier. -/
def round_strike (price strike_value : ℚ) : ℚ :=
  let increment : ℚ := if price < 25 then 1 / 2 else if price < 200 then 1 else 5
  (pyround (strike_value / increment) : ℚ) * increment

/-- Third Friday (first day on/after the 1st whose weekday is Friday, plus 14
days) of the month that starts on day number `daysFromCivil y m 1`. -/
def thirdFridayOf (y m : ℤ) : ℤ :=
  let first_day : ℤ := daysFromCivil y m 1
  let first_friday : ℤ := first_day + (4 - weekday first_day) % 7
  first_friday + 14

/-- Third Friday of the month containing day number `z`. -/
def thirdFridayOfMonthOf (z : ℤ) : ℤ := thirdFridayOf (yearOf z) (monthOf z)

/-- The 12 candidate expirations considered by `get_option_expiration` run on
day `today`: the third Friday of the month containing `today + 30*k` for
`k = 0, …, 11`. -/
def expirationCandidates (today : ℤ) : List ℤ :=
  (List.range 12).map (fun month_offset => thirdFridayOfMonthOf (today + 30 * (month_offset : ℤ)))

/-- Python `min(l, key=lambda x: abs(x - t))` starting from current best
`best`: a later element replaces the best only when strictly smaller, so the
first minimum wins. -/
def minAbsAux (t best : ℤ) : List ℤ → ℤ
  | [] => best
  | x :: xs => if |x - t| < |best - t| then minAbsAux t x xs else minAbsAux t best xs

/-- Python `min(l, key=lambda x: abs(x - t))` (0 on the empty list, which the
program never hits: the candidate list always has 12 elements). -/
def minAbs (t : ℤ) : List ℤ → ℤ
  | [] => 0
  | x :: xs => minAbsAux t x xs

/-- The day number returned by `get_option_expiration(days_target)` run on day
`today` (the value of `closest` before `strftime`). -/
def get_option_expiration_date (today days_target : ℤ) : ℤ :=
  minAbs (today + days_target) (expirationCandidates today)

/-- Model of `get_option_expiration(days_target)` run on day `today`. -/
def get_option_expiration (today days_target : ℤ) : String :=
  isoDate (get_option_expiration_date today days_target)

/-- Model of `sum(ord(c) for c in symbol)`. -/
def tickerSum (symbol : String) : ℤ :=
  (symbol.data.map (fun c => (c.toNat : ℤ))).sum

/-- The fixed menu of wildcard OTM fractions, `otm_levels` in the source, as
exact rationals. -/
def otm_levels : List ℚ := [95/100, 90/100, 82/100, 75/100, 65/100, 55/100]

/-- The fixed menu of wildcard day horizons, `days_options` in the source. -/
def days_options : List ℤ := [60, 90, 120, 150, 180, 210]

/-- Wildcard selection (source lines: `seed = (day_of_year * ticker_sum) % 6`,
`random_otm = otm_levels[seed]`,
`random_days = days_options[(day_of_year * ticker_sum) % len(days_options)]`),
where `today` stands for the ambient `datetime.now()` date. -/
def select_wildcard (today : ℤ) (symbol : String) : ℚ × ℤ :=
  let day_of_year := dayOfYear today
  let ticker_sum := tickerSum symbol
  let seed := (day_of_year * ticker_sum) % 6
  (otm_levels.getD seed.toNat 0,
   days_options.getD ((day_of_year * ticker_sum) % (days_options.length : ℤ)).toNat 0)

/-- Number of halvings needed to bring `1 ≤ q` below 2 (so `2^(log2Down f q) ≤ q
< 2^(log2Down f q + 1)` once the fuel `f` is large enough). -/
def log2Down (fuel : ℕ) (q : ℚ) : ℤ :=
  if fuel = 0 then 0
  else if q < 2 then 0 else 1 + log2Down (fuel - 1) (q / 2)
termination_by fuel
decreasing_by omega

/-- Number of doublings needed to bring `0 < q < 1` up to at least 1. -/
def log2Doublings (fuel : ℕ) (q : ℚ) : ℤ :=
  if fuel = 0 then 0
  else if 1 ≤ q then 0 else 1 + log2Doublings (fuel - 1) (2 * q)
termination_by fuel
decreasing_by omega

/-- Binary exponent of a positive rational: the `e` with `2^e ≤ q < 2^(e+1)`
(for the normal-range magnitudes appearing here; fuel 400 covers them). -/
def ilog2 (q : ℚ) : ℤ :=
  if 1 ≤ q then log2Down 400 q else - log2Doublings 400 q

/-- Round a positive rational to the nearest IEEE-754 binary64 value (53
significant bits, ties to the even significand), as an exact rational.  This
models the value of a Python float literal or arithmetic result for the
normal-range magnitudes used here; `0` for non-positive input (never hit). -/
def fl (q : ℚ) : ℚ :=
  if q ≤ 0 then 0
  else (pyround (q * (2 : ℚ) ^ ((52 : ℤ) - ilog2 q)) : ℚ) * (2 : ℚ) ^ (ilog2 q - 52)

/-- The percentage printed in candidate 8's description: the Python expression
`int((1 - random_otm) * 100)` evaluated in binary64 — the decimal literal
`random_otm` is first rounded to a double, each arithmetic step rounds to the
nearest double, and `int` truncates toward zero (= floor, the value being
positive). -/
def wildcardPct (otm : ℚ) : ℤ := ⌊fl (fl (1 - fl otm) * 100)⌋

/-- One output record (one row of the generated report).  `Type` is a reserved
word in Lean, so the source's `Type` field is named `Type'`. -/
structure OptionRec where
  Symbol : String
  Option_Num : ℕ
  Expiration : String
  Strike : ℚ
  Type' : String
  Description : String
  Bid : String
  Ask : String
  Mid : String
  Notes : String
deriving DecidableEq

instance : Inhabited OptionRec :=
  ⟨⟨"", 0, "", 0, "", "", "", "", "", ""⟩⟩

/-- Model of `generate_options_for_stock(symbol, price)` with every ambient
`datetime.now()` read made explicit: `now1`/`now2`/`now3` are the dates read
inside the three fresh `get_option_expiration` calls for `exp_3m`, `exp_6m`
and `exp_4_5m`, `now4` the date read for `day_of_year`, and `now5` the date
read inside the `get_option_expiration(random_days)` call. -/
def generate_options_for_stock_clocked (symbol : String) (price : ℚ)
    (now1 now2 now3 now4 now5 : ℤ) : List OptionRec :=
  let exp_3m := get_option_expiration now1 90
  let exp_6m := get_option_expiration now2 180
  let exp_4_5m := get_option_expiration now3 135
  let random_otm := (select_wildcard now4 symbol).1
  let random_days := (select_wildcard now4 symbol).2
  let random_exp := get_option_expiration now5 random_days
  [ { Symbol := symbol, Option_Num := 1, Expiration := exp_3m,
      Strike := round_strike price price, Type' := "Put",
      Description := "3mo ATM - Anchor",
      Bid := "", Ask := "", Mid := "", Notes := "" },
    { Symbol := symbol, Option_Num := 2, Expiration := exp_3m,
      Strike := round_strike price (price * (85/100)), Type' := "Put",
      Description := "3mo 15% OTM - Fear Premium",
      Bid := "", Ask := "", Mid := "", Notes := "" },
    { Symbol := symbol, Option_Num := 3, Expiration := exp_3m,
      Strike := round_strike price (price * (70/100)), Type' := "Put",
      Description := "3mo 30% OTM - Lottery",
      Bid := "", Ask := "", Mid := "", Notes := "" },
    { Symbol := symbol, Option_Num := 4, Expiration := exp_6m,
      Strike := round_strike price (price * (85/100)), Type' := "Put",
      Description := "6mo 15% OTM - Sweet Spot",
      Bid := "", Ask := "", Mid := "", Notes := "" },
    { Symbol := symbol, Option_Num := 5, Expiration := exp_6m,
      Strike := round_strike price price, Type' := "Put",
      Description := "6mo ATM - Arb Check",
      Bid := "", Ask := "", Mid := "", Notes := "" },
    { Symbol := symbol, Option_Num := 6, Expiration := exp_4_5m,
      Strike := round_strike price (price * (80/100)), Type' := "Put",
      Description := "4.5mo 20% OTM - Explore",
      Bid := "", Ask := "", Mid := "", Notes := "" },
    { Symbol := symbol, Option_Num := 7, Expiration := exp_3m,
      Strike := round_strike price (price * (60/100)), Type' := "Put",
      Description := "3mo 40% OTM - Deep Explore",
      Bid := "", Ask := "", Mid := "", Notes := "" },
    { Symbol := symbol, Option_Num := 8, Expiration := random_exp,
      Strike := round_strike price (price * random_otm), Type' := "Put",
      Description := "Random - " ++ toString (wildcardPct random_otm) ++ "% OTM",
      Bid := "", Ask := "", Mid := "", Notes := "" } ]

/-- Model of `generate_options_for_stock(symbol, price)` run on day `today`
(all the
ambient clock reads during one run return the same date). -/
def generate_options_for_stock (symbol : String) (price : ℚ) (today : ℤ) :
    List OptionRec :=
  generate_options_for_stock_clocked symbol price today today today today today

/-! Helper lemmas about `pyround`. -/

theorem pyround_cases (q : ℚ) :
    (pyround q = ⌊q⌋ ∧ q - ⌊q⌋ ≤ 1 / 2) ∨ (pyround q = ⌊q⌋ + 1 ∧ 1 / 2 ≤ q - ⌊q⌋) := by
  unfold pyround
  split_ifs with h1 h2 h3
  · exact Or.inl ⟨rfl, le_of_lt h1⟩
  · exact Or.inr ⟨rfl, le_of_lt h2⟩
  · exact Or.inl ⟨rfl, le_of_not_lt h2⟩
  · exact Or.inr ⟨rfl, le_of_not_lt h1⟩

/-- Rounding with `pyround` lands at least as close to `q` as any integer. -/
theorem pyround_nearest (q : ℚ) (k : ℤ) : |(pyround q : ℚ) - q| ≤ |(k : ℚ) - q| := by
  have hf1 : (⌊q⌋ : ℚ) ≤ q := Int.floor_le q
  have hf2 : q < ⌊q⌋ + 1 := Int.lt_floor_add_one q
  have hk : (k : ℚ) ≤ (⌊q⌋ : ℚ) ∨ (⌊q⌋ : ℚ) + 1 ≤ (k : ℚ) := by
    have h : k ≤ ⌊q⌋ ∨ ⌊q⌋ + 1 ≤ k := by omega
    rcases h with h | h
    · exact Or.inl (by exact_mod_cast h)
    · exact Or.inr (by exact_mod_cast h)
  have hself : (k : ℚ) - q ≤ |(k : ℚ) - q| := le_abs_self _
  have hneg : q - (k : ℚ) ≤ |(k : ℚ) - q| := by
    rw [abs_sub_comm]; exact le_abs_self _
  rcases pyround_cases q with ⟨he, hb⟩ | ⟨he, hb⟩ <;> rw [he]
  · have habs : |((⌊q⌋ : ℤ) : ℚ) - q| = q - ⌊q⌋ := by
      rw [abs_sub_comm]; exact abs_of_nonneg (by linarith)
    rw [habs]
    rcases hk with h | h
    · linarith
    · linarith
  · have habs : |(((⌊q⌋ : ℤ) + 1 : ℤ) : ℚ) - q| = (⌊q⌋ : ℚ) + 1 - q := by
      push_cast
      exact abs_of_nonneg (by linarith)
    push_cast
    push_cast at habs
    rw [habs]
    rcases hk with h | h
    · linarith
    · linarith

/-- Monotonicity of `pyround`. -/
theorem pyround_mono {a b : ℚ} (hab : a ≤ b) : pyround a ≤ pyround b := by
  have hfab : ⌊a⌋ ≤ ⌊b⌋ := Int.floor_le_floor hab
  rcases lt_or_eq_of_le hfab with hlt | heq
  · have h1 : pyround a ≤ ⌊a⌋ + 1 := by
      rcases pyround_cases a with ⟨he, _⟩ | ⟨he, _⟩ <;> omega
    have h2 : ⌊b⌋ ≤ pyround b := by
      rcases pyround_cases b with ⟨he, _⟩ | ⟨he, _⟩ <;> omega
    omega
  · have heqQ : ((⌊a⌋ : ℤ) : ℚ) = ((⌊b⌋ : ℤ) : ℚ) := by exact_mod_cast heq
    unfold pyround
    split_ifs with ha1 ha2 ha3 hb1 hb2 hb3 <;>
      first
        | omega
        | (exfalso; linarith)

/-! Helper lemmas about `round_strike`. -/

theorem increment_pos (price : ℚ) :
    0 < (if price < 25 then (1 : ℚ) / 2 else if price < 200 then 1 else 5) := by
  split_ifs <;> norm_num

/-- Rounding to the nearest multiple of a positive increment is at least as
close to the target as any multiple of that increment. -/
theorem pyround_mul_nearest (x : ℚ) {inc : ℚ} (hinc : 0 < inc) (m : ℤ) :
    |(pyround (x / inc) : ℚ) * inc - x| ≤ |(m : ℚ) * inc - x| := by
  have hne : inc ≠ 0 := ne_of_gt hinc
  have e1 : (pyround (x / inc) : ℚ) * inc - x = ((pyround (x / inc) : ℚ) - x / inc) * inc := by
    rw [sub_mul, div_mul_cancel₀ _ hne]
  have e2 : (m : ℚ) * inc - x = ((m : ℚ) - x / inc) * inc := by
    rw [sub_mul, div_mul_cancel₀ _ hne]
  rw [e1, e2, abs_mul, abs_mul, abs_of_pos hinc]
  exact mul_le_mul_of_nonneg_right (pyround_nearest _ _) (le_of_lt hinc)

theorem round_strike_mono_aux (price : ℚ) {t1 t2 : ℚ} (h : t1 ≤ t2) :
    round_strike price t1 ≤ round_strike price t2 := by
  unfold round_strike
  have hinc := increment_pos price
  set inc : ℚ := if price < 25 then (1 : ℚ) / 2 else if price < 200 then 1 else 5 with hinc_def
  have hdiv : t1 / inc ≤ t2 / inc := (div_le_div_iff_of_pos_right hinc).mpr h
  exact mul_le_mul_of_nonneg_right (by exact_mod_cast pyround_mono hdiv) (le_of_lt hinc)

/-! Helper lemmas about `minAbs` (Python's stable `min` with an absolute
distance key: the first element attaining the minimal key wins). -/

theorem minAbsAux_mem (t : ℤ) : ∀ (l : List ℤ) (b : ℤ), minAbsAux t b l ∈ b :: l := by
  intro l
  induction l with
  | nil => intro b; simp [minAbsAux]
  | cons x xs ih =>
    intro b
    by_cases h : |x - t| < |b - t|
    · simp only [minAbsAux, if_pos h]
      exact List.mem_cons_of_mem _ (ih x)
    · simp only [minAbsAux, if_neg h]
      rcases List.mem_cons.mp (ih b) with h' | h'
      · exact List.mem_cons.mpr (Or.inl h')
      · exact List.mem_cons.mpr (Or.inr (List.mem_cons_of_mem _ h'))

/-- The result of Python's `min(b :: l, key=|· - t|)` occurs at some index `i`,
every element strictly before `i` has a strictly larger key (first minimum
wins), and every element of the list has a key at least as large. -/
theorem minAbsAux_spec (t : ℤ) : ∀ (l : List ℤ) (b : ℤ),
    ∃ i : ℕ, i < (b :: l).length ∧ (b :: l).getD i 0 = minAbsAux t b l ∧
      (∀ j : ℕ, j < i → |minAbsAux t b l - t| < |(b :: l).getD j 0 - t|) ∧
      (∀ j : ℕ, j < (b :: l).length → |minAbsAux t b l - t| ≤ |(b :: l).getD j 0 - t|) := by
  intro l
  induction l with
  | nil =>
    intro b
    refine ⟨0, by simp, by simp [minAbsAux], by omega, ?_⟩
    intro j hj
    have hj0 : j = 0 := by simp at hj; omega
    subst hj0
    simp [minAbsAux]
  | cons x xs ih =>
    intro b
    by_cases h : |x - t| < |b - t|
    · obtain ⟨i, hi, hg, hpre, hall⟩ := ih x
      have hres : minAbsAux t b (x :: xs) = minAbsAux t x xs := by
        simp only [minAbsAux, if_pos h]
      have hkey : |minAbsAux t x xs - t| ≤ |x - t| := by
        simpa using hall 0 (by simp)
      refine ⟨i + 1, by simpa using hi, ?_, ?_, ?_⟩
      · simpa [hres, List.getD_cons_succ] using hg
      · intro j hj
        cases j with
        | zero =>
          simp only [List.getD_cons_zero, hres]
          omega
        | succ j' =>
          simp only [List.getD_cons_succ, hres]
          exact hpre j' (by omega)
      · intro j hj
        cases j with
        | zero =>
          simp only [List.getD_cons_zero, hres]
          omega
        | succ j' =>
          simp only [List.getD_cons_succ, hres]
          exact hall j' (by simpa using hj)
    · obtain ⟨i, hi, hg, hpre, hall⟩ := ih b
      have hres : minAbsAux t b (x :: xs) = minAbsAux t b xs := by
        simp only [minAbsAux, if_neg h]
      have hkey : |minAbsAux t b xs - t| ≤ |b - t| := by
        simpa using hall 0 (by simp)
      cases i with
      | zero =>
        refine ⟨0, by simp, ?_, by omega, ?_⟩
        · simpa [hres] using hg
        · intro j hj
          cases j with
          | zero =>
            simp only [List.getD_cons_zero, hres]
            exact hkey
          | succ j' =>
            cases j' with
            | zero =>
              simp only [List.getD_cons_succ, List.getD_cons_zero, hres]
              omega
            | succ j'' =>
              simp only [List.getD_cons_succ, hres]
              have := hall (j'' + 1) (by simpa using hj)
              simpa using this
      | succ i' =>
        refine ⟨i' + 2, by simpa using hi, ?_, ?_, ?_⟩
        · simp only [List.getD_cons_succ, hres]
          simpa using hg
        · intro j hj
          cases j with
          | zero =>
            simp only [List.getD_cons_zero, hres]
            have := hpre 0 (by omega)
            simpa using this
          | succ j' =>
            cases j' with
            | zero =>
              simp only [List.getD_cons_succ, List.getD_cons_zero, hres]
              have h0 : |minAbsAux t b xs - t| < |b - t| := by
                simpa using hpre 0 (by omega)
              omega
            | succ j'' =>
              simp only [List.getD_cons_succ, hres]
              have := hpre (j'' + 1) (by omega)
              simpa using this
        · intro j hj
          cases j with
          | zero =>
            simp only [List.getD_cons_zero, hres]
            exact hkey
          | succ j' =>
            cases j' with
            | zero =>
              simp only [List.getD_cons_succ, List.getD_cons_zero, hres]
              omega
            | succ j'' =>
              simp only [List.getD_cons_succ, hres]
              have := hall (j'' + 1) (by simpa using hj)
              simpa using this

/-! Helper lemmas pinning down the binary64 model `fl` on the concrete values
the wildcard percentage computation feeds it. -/

theorem log2Doublings_eval : ∀ (k fuel : ℕ) (q : ℚ), k < fuel →
    1 ≤ 2 ^ k * q → (∀ j : ℕ, j < k → 2 ^ j * q < 1) →
    log2Doublings fuel q = k := by
  intro k
  induction k with
  | zero =>
    intro fuel q hf h1 _
    rw [log2Doublings, if_neg (by omega), if_pos (by simpa using h1)]
    simp
  | succ k ih =>
    intro fuel q hf h1 hj
    have hq1 : q < 1 := by simpa using hj 0 (Nat.succ_pos k)
    rw [log2Doublings, if_neg (by omega), if_neg (not_le.mpr hq1)]
    have hrec : log2Doublings (fuel - 1) (2 * q) = k := by
      refine ih (fuel - 1) (2 * q) (by omega) ?_ ?_
      · have he : (2 : ℚ) ^ k * (2 * q) = 2 ^ (k + 1) * q := by ring
        rw [he]; exact h1
      · intro j hjk
        have he : (2 : ℚ) ^ j * (2 * q) = 2 ^ (j + 1) * q := by ring
        rw [he]; exact hj (j + 1) (by omega)
    rw [hrec]
    push_cast
    ring

theorem log2Down_eval : ∀ (k fuel : ℕ) (q : ℚ), k < fuel →
    q < 2 ^ (k + 1) → (∀ j : ℕ, j < k → 2 ^ (j + 1) ≤ q) →
    log2Down fuel q = k := by
  intro k
  induction k with
  | zero =>
    intro fuel q hf h1 _
    rw [log2Down, if_neg (by omega), if_pos (by simpa using h1)]
    simp
  | succ k ih =>
    intro fuel q hf h1 hj
    have hq2 : (2 : ℚ) ≤ q := by simpa using hj 0 (Nat.succ_pos k)
    rw [log2Down, if_neg (by omega), if_neg (not_lt.mpr hq2)]
    have hrec : log2Down (fuel - 1) (q / 2) = k := by
      refine ih (fuel - 1) (q / 2) (by omega) ?_ ?_
      · rw [div_lt_iff₀ (by norm_num : (0 : ℚ) < 2)]
        calc q < 2 ^ (k + 1 + 1) := h1
          _ = 2 ^ (k + 1) * 2 := by ring
      · intro j hjk
        rw [le_div_iff₀ (by norm_num : (0 : ℚ) < 2)]
        calc (2 : ℚ) ^ (j + 1) * 2 = 2 ^ (j + 1 + 1) := by ring
          _ ≤ q := hj (j + 1) (by omega)
    rw [hrec]
    push_cast
    ring

theorem ilog2_of_lt_one (q : ℚ) (k : ℕ) (h1 : q < 1) (hk : k < 400)
    (ha : 1 ≤ 2 ^ k * q) (hb : ∀ j : ℕ, j < k → 2 ^ j * q < 1) :
    ilog2 q = -(k : ℤ) := by
  rw [ilog2, if_neg (not_le.mpr h1), log2Doublings_eval k 400 q hk ha hb]

theorem ilog2_of_one_le (q : ℚ) (k : ℕ) (h1 : 1 ≤ q) (hk : k < 400)
    (ha : q < 2 ^ (k + 1)) (hb : ∀ j : ℕ, j < k → 2 ^ (j + 1) ≤ q) :
    ilog2 q = (k : ℤ) := by
  rw [ilog2, if_pos h1, log2Down_eval k 400 q hk ha hb]

theorem fl_eval (q r : ℚ) (e : ℤ) (hq : 0 < q) (he : ilog2 q = e)
    (hr : (pyround (q * (2 : ℚ) ^ ((52 : ℤ) - e)) : ℚ) * (2 : ℚ) ^ (e - 52) = r) :
    fl q = r := by
  rw [fl, if_neg (not_le.mpr hq), he]
  exact hr

theorem wildcardPct_eval (c v1 v2 v3 : ℚ) (p : ℤ)
    (h1 : fl c = v1) (h2 : fl (1 - v1) = v2) (h3 : fl (v2 * 100) = v3)
    (h4 : ⌊v3⌋ = p) : wildcardPct c = p := by
  rw [wildcardPct, h1, h2, h3, h4]

/-- Binary64 evaluation of `int((1 - 95/100) * 100)` for the menu entry `95/100`. -/
theorem wildcardPct_95 : wildcardPct (95/100) = 5 := by
  have he1 : ilog2 (95/100 : ℚ) = -1 := by
    have h := ilog2_of_lt_one (95/100 : ℚ) 1 (by norm_num) (by norm_num) (by norm_num)
      (fun j hj => by interval_cases j <;> norm_num)
    simpa using h
  have he2 : ilog2 (1 - (4278419646001971/4503599627370496 : ℚ)) = -5 := by
    have h := ilog2_of_lt_one (1 - (4278419646001971/4503599627370496 : ℚ)) 5 (by norm_num) (by norm_num) (by norm_num)
      (fun j hj => by interval_cases j <;> norm_num)
    simpa using h
  have he3 : ilog2 ((225179981368525/4503599627370496 : ℚ) * 100) = 2 := by
    have h := ilog2_of_one_le ((225179981368525/4503599627370496 : ℚ) * 100) 2 (by norm_num) (by norm_num) (by norm_num)
      (fun j hj => by interval_cases j <;> norm_num)
    simpa using h
  exact wildcardPct_eval (95/100) (4278419646001971/4503599627370496) (225179981368525/4503599627370496) (5629499534213125/1125899906842624) 5
    (fl_eval (95/100) (4278419646001971/4503599627370496) (-1) (by norm_num) he1 (by norm_num [pyround]))
    (fl_eval (1 - (4278419646001971/4503599627370496 : ℚ)) (225179981368525/4503599627370496) (-5) (by norm_num) he2 (by norm_num [pyround]))
    (fl_eval ((225179981368525/4503599627370496 : ℚ) * 100) (5629499534213125/1125899906842624) (2) (by norm_num) he3 (by norm_num [pyround]))
    (by norm_num)

/-- Binary64 evaluation of `int((1 - 90/100) * 100)` for the menu entry `90/100`. -/
theorem wildcardPct_90 : wildcardPct (90/100) = 9 := by
  have he1 : ilog2 (90/100 : ℚ) = -1 := by
    have h := ilog2_of_lt_one (90/100 : ℚ) 1 (by norm_num) (by norm_num) (by norm_num)
      (fun j hj => by interval_cases j <;> norm_num)
    simpa using h
  have he2 : ilog2 (1 - (8106479329266893/9007199254740992 : ℚ)) = -4 := by
    have h := ilog2_of_lt_one (1 - (8106479329266893/9007199254740992 : ℚ)) 4 (by norm_num) (by norm_num) (by norm_num)
      (fun j hj => by interval_cases j <;> norm_num)
    simpa using h
  have he3 : ilog2 ((900719925474099/9007199254740992 : ℚ) * 100) = 3 := by
    have h := ilog2_of_one_le ((900719925474099/9007199254740992 : ℚ) * 100) 3 (by norm_num) (by norm_num) (by norm_num)
      (fun j hj => by interval_cases j <;> norm_num)
    simpa using h
  exact wildcardPct_eval (90/100) (8106479329266893/9007199254740992) (900719925474099/9007199254740992) (5629499534213119/562949953421312) 9
    (fl_eval (90/100) (8106479329266893/9007199254740992) (-1) (by norm_num) he1 (by norm_num [pyround]))
    (fl_eval (1 - (8106479329266893/9007199254740992 : ℚ)) (900719925474099/9007199254740992) (-4) (by norm_num) he2 (by norm_num [pyround]))
    (fl_eval ((900719925474099/9007199254740992 : ℚ) * 100) (5629499534213119/562949953421312) (3) (by norm_num) he3 (by norm_num [pyround]))
    (by norm_num)

/-- Binary64 evaluation of `int((1 - 82/100) * 100)` for the menu entry `82/100`. -/
theorem wildcardPct_82 : wildcardPct (82/100) = 18 := by
  have he1 : ilog2 (82/100 : ℚ) = -1 := by
    have h := ilog2_of_lt_one (82/100 : ℚ) 1 (by norm_num) (by norm_num) (by norm_num)
      (fun j hj => by interval_cases j <;> norm_num)
    simpa using h
  have he2 : ilog2 (1 - (7385903388887613/9007199254740992 : ℚ)) = -3 := by
    have h := ilog2_of_lt_one (1 - (7385903388887613/9007199254740992 : ℚ)) 3 (by norm_num) (by norm_num) (by norm_num)
      (fun j hj => by interval_cases j <;> norm_num)
    simpa using h
  have he3 : ilog2 ((1621295865853379/9007199254740992 : ℚ) * 100) = 4 := by
    have h := ilog2_of_one_le ((1621295865853379/9007199254740992 : ℚ) * 100) 4 (by norm_num) (by norm_num) (by norm_num)
      (fun j hj => by interval_cases j <;> norm_num)
    simpa using h
  exact wildcardPct_eval (82/100) (7385903388887613/9007199254740992) (1621295865853379/9007199254740992) (5066549580791809/281474976710656) 18
    (fl_eval (82/100) (7385903388887613/9007199254740992) (-1) (by norm_num) he1 (by norm_num [pyround]))
    (fl_eval (1 - (7385903388887613/9007199254740992 : ℚ)) (1621295865853379/9007199254740992) (-3) (by norm_num) he2 (by norm_num [pyround]))
    (fl_eval ((1621295865853379/9007199254740992 : ℚ) * 100) (5066549580791809/281474976710656) (4) (by norm_num) he3 (by norm_num [pyround]))
    (by norm_num)

/-- Binary64 evaluation of `int((1 - 75/100) * 100)` for the menu entry `75/100`. -/
theorem wildcardPct_75 : wildcardPct (75/100) = 25 := by
  have he1 : ilog2 (75/100 : ℚ) = -1 := by
    have h := ilog2_of_lt_one (75/100 : ℚ) 1 (by norm_num) (by norm_num) (by norm_num)
      (fun j hj => by interval_cases j <;> norm_num)
    simpa using h
  have he2 : ilog2 (1 - (3/4 : ℚ)) = -2 := by
    have h := ilog2_of_lt_one (1 - (3/4 : ℚ)) 2 (by norm_num) (by norm_num) (by norm_num)
      (fun j hj => by interval_cases j <;> norm_num)
    simpa using h
  have he3 : ilog2 ((1/4 : ℚ) * 100) = 4 := by
    have h := ilog2_of_one_le ((1/4 : ℚ) * 100) 4 (by norm_num) (by norm_num) (by norm_num)
      (fun j hj => by interval_cases j <;> norm_num)
    simpa using h
  exact wildcardPct_eval (75/100) (3/4) (1/4) (25) 25
    (fl_eval (75/100) (3/4) (-1) (by norm_num) he1 (by norm_num [pyround]))
    (fl_eval (1 - (3/4 : ℚ)) (1/4) (-2) (by norm_num) he2 (by norm_num [pyround]))
    (fl_eval ((1/4 : ℚ) * 100) (25) (4) (by norm_num) he3 (by norm_num [pyround]))
    (by norm_num)

/-- Binary64 evaluation of `int((1 - 65/100) * 100)` for the menu entry `65/100`. -/
theorem wildcardPct_65 : wildcardPct (65/100) = 35 := by
  have he1 : ilog2 (65/100 : ℚ) = -1 := by
    have h := ilog2_of_lt_one (65/100 : ℚ) 1 (by norm_num) (by norm_num) (by norm_num)
      (fun j hj => by interval_cases j <;> norm_num)
    simpa using h
  have he2 : ilog2 (1 - (5854679515581645/9007199254740992 : ℚ)) = -2 := by
    have h := ilog2_of_lt_one (1 - (5854679515581645/9007199254740992 : ℚ)) 2 (by norm_num) (by norm_num) (by norm_num)
      (fun j hj => by interval_cases j <;> norm_num)
    simpa using h
  have he3 : ilog2 ((3152519739159347/9007199254740992 : ℚ) * 100) = 5 := by
    have h := ilog2_of_one_le ((3152519739159347/9007199254740992 : ℚ) * 100) 5 (by norm_num) (by norm_num) (by norm_num)
      (fun j hj => by interval_cases j <;> norm_num)
    simpa using h
  exact wildcardPct_eval (65/100) (5854679515581645/9007199254740992) (3152519739159347/9007199254740992) (35) 35
    (fl_eval (65/100) (5854679515581645/9007199254740992) (-1) (by norm_num) he1 (by norm_num [pyround]))
    (fl_eval (1 - (5854679515581645/9007199254740992 : ℚ)) (3152519739159347/9007199254740992) (-2) (by norm_num) he2 (by norm_num [pyround]))
    (fl_eval ((3152519739159347/9007199254740992 : ℚ) * 100) (35) (5) (by norm_num) he3 (by norm_num [pyround]))
    (by norm_num)

/-- Binary64 evaluation of `int((1 - 55/100) * 100)` for the menu entry `55/100`. -/
theorem wildcardPct_55 : wildcardPct (55/100) = 44 := by
  have he1 : ilog2 (55/100 : ℚ) = -1 := by
    have h := ilog2_of_lt_one (55/100 : ℚ) 1 (by norm_num) (by norm_num) (by norm_num)
      (fun j hj => by interval_cases j <;> norm_num)
    simpa using h
  have he2 : ilog2 (1 - (2476979795053773/4503599627370496 : ℚ)) = -2 := by
    have h := ilog2_of_lt_one (1 - (2476979795053773/4503599627370496 : ℚ)) 2 (by norm_num) (by norm_num) (by norm_num)
      (fun j hj => by interval_cases j <;> norm_num)
    simpa using h
  have he3 : ilog2 ((2026619832316723/4503599627370496 : ℚ) * 100) = 5 := by
    have h := ilog2_of_one_le ((2026619832316723/4503599627370496 : ℚ) * 100) 5 (by norm_num) (by norm_num) (by norm_num)
      (fun j hj => by interval_cases j <;> norm_num)
    simpa using h
  exact wildcardPct_eval (55/100) (2476979795053773/4503599627370496) (2026619832316723/4503599627370496) (6333186975989759/140737488355328) 44
    (fl_eval (55/100) (2476979795053773/4503599627370496) (-1) (by norm_num) he1 (by norm_num [pyround]))
    (fl_eval (1 - (2476979795053773/4503599627370496 : ℚ)) (2026619832316723/4503599627370496) (-2) (by norm_num) he2 (by norm_num [pyround]))
    (fl_eval ((2026619832316723/4503599627370496 : ℚ) * 100) (6333186975989759/140737488355328) (5) (by norm_num) he3 (by norm_num [pyround]))
    (by norm_num)

/-- The six wildcard menu percentages as the program actually prints them. -/
theorem otm_levels_pct : otm_levels.map wildcardPct = [5, 9, 18, 25, 35, 44] := by
  simp only [otm_levels, List.map_cons, List.map_nil,
    wildcardPct_95, wildcardPct_90, wildcardPct_82, wildcardPct_75, wildcardPct_65,
    wildcardPct_55]

/-! Helper lemmas about third Fridays. -/

/-- The date computed by `first_friday + 14 days` really falls on a Friday
(Python weekday 4). -/
theorem weekday_thirdFridayOf (y m : ℤ) : weekday (thirdFridayOf y m) = 4 := by
  simp only [thirdFridayOf, weekday]
  omega

/-- The date computed by `first_friday + 14 days` lies 14 to 20 days after the
first day of the month it was computed from (i.e. on the 15th to 21st). -/
theorem thirdFridayOf_offset (y m : ℤ) :
    14 ≤ thirdFridayOf y m - daysFromCivil y m 1 ∧
      thirdFridayOf y m - daysFromCivil y m 1 ≤ 20 := by
  simp only [thirdFridayOf, weekday]
  omega

/-! The claims. -/

/-- Claim C3: `round_strike(reference_price, raw_target)` returns a multiple of
the tier increment (0.5 below 25, 1.0 from 25 up to 200, 5.0 from 200 up, tiered
by the reference price) that is nearest to `raw_target` (no other multiple of
the increment is strictly closer), and in particular
`round_strike(10, 10) = 10.0`, `round_strike(100, 101.3) = 101.0` and
`round_strike(300, 303) = 305.0`. -/
theorem round_strike_nearest_tiered_multiple (price t : ℚ) :
    (∃ k : ℤ, round_strike price t =
      (k : ℚ) * (if price < 25 then (1 : ℚ) / 2 else if price < 200 then 1 else 5)) ∧
    (∀ m : ℤ, |round_strike price t - t| ≤
      |(m : ℚ) * (if price < 25 then (1 : ℚ) / 2 else if price < 200 then 1 else 5) - t|) ∧
    round_strike 10 10 = 10 ∧ round_strike 100 (1013 / 10) = 101 ∧
    round_strike 300 303 = 305 := by
  refine ⟨⟨pyround (t / (if price < 25 then (1 : ℚ) / 2 else if price < 200 then 1 else 5)),
      rfl⟩,
    fun m => pyround_mul_nearest t (increment_pos price) m, ?_, ?_, ?_⟩ <;>
    norm_num [round_strike, pyround]

/-- Witness for C3 at `price = 100`, `t = 101.3`, `m = 102`. -/
theorem round_strike_nearest_tiered_multiple_witness :
    |round_strike 100 (1013 / 10) - 1013 / 10| ≤
      |(102 : ℚ) * (if (100 : ℚ) < 25 then (1 : ℚ) / 2 else if (100 : ℚ) < 200 then 1 else 5)
        - 1013 / 10| :=
  (round_strike_nearest_tiered_multiple 100 (1013 / 10)).2.1 102

/-- Claim C10 (implicit): `round_strike` is monotone in its second argument,
and consequently in one generated sequence the strikes of candidates 1, 2, 3
and 7 are non-increasing in that order. -/
theorem round_strike_monotone_strikes_ordered :
    (∀ price t1 t2 : ℚ, t1 ≤ t2 → round_strike price t1 ≤ round_strike price t2) ∧
    ∀ (symbol : String) (price : ℚ) (today : ℤ), 0 < price →
      ((generate_options_for_stock symbol price today).getD 1 default).Strike ≤
        ((generate_options_for_stock symbol price today).getD 0 default).Strike ∧
      ((generate_options_for_stock symbol price today).getD 2 default).Strike ≤
        ((generate_options_for_stock symbol price today).getD 1 default).Strike ∧
      ((generate_options_for_stock symbol price today).getD 6 default).Strike ≤
        ((generate_options_for_stock symbol price today).getD 2 default).Strike := by
  constructor
  · exact fun price t1 t2 h => round_strike_mono_aux price h
  · intro symbol price today hp
    refine ⟨?_, ?_, ?_⟩
    · show round_strike price (price * (85 / 100)) ≤ round_strike price price
      exact round_strike_mono_aux price (by linarith)
    · show round_strike price (price * (70 / 100)) ≤ round_strike price (price * (85 / 100))
      exact round_strike_mono_aux price (by linarith)
    · show round_strike price (price * (60 / 100)) ≤ round_strike price (price * (70 / 100))
      exact round_strike_mono_aux price (by linarith)

/-- Witness for C10 at `price = 50`, `t1 = 30`, `t2 = 47`, and the concrete
generated sequence for ("ABC", 50, 2024-01-02). -/
theorem round_strike_monotone_strikes_ordered_witness :
    round_strike 50 30 ≤ round_strike 50 47 ∧
    (((generate_options_for_stock "ABC" 50 (daysFromCivil 2024 1 2)).getD 1 default).Strike ≤
        ((generate_options_for_stock "ABC" 50 (daysFromCivil 2024 1 2)).getD 0 default).Strike ∧
      ((generate_options_for_stock "ABC" 50 (daysFromCivil 2024 1 2)).getD 2 default).Strike ≤
        ((generate_options_for_stock "ABC" 50 (daysFromCivil 2024 1 2)).getD 1 default).Strike ∧
      ((generate_options_for_stock "ABC" 50 (daysFromCivil 2024 1 2)).getD 6 default).Strike ≤
        ((generate_options_for_stock "ABC" 50 (daysFromCivil 2024 1 2)).getD 2 default).Strike) :=
  ⟨round_strike_monotone_strikes_ordered.1 50 30 47 (by norm_num),
    round_strike_monotone_strikes_ordered.2 "ABC" 50 (daysFromCivil 2024 1 2) (by norm_num)⟩

/-- Claim C5 counterexample: run from 2024-01-02, the naive `+30*offset` day
stepping visits May 2024 twice (offsets 4 and 5) and never visits December
2024, so the 12 candidates are not one-per-month for 12 consecutive months:
the third Friday of May (2024-05-17) appears twice and the third Friday of
December (2024-12-20) is absent. -/
theorem expirationCandidates_skip_and_duplicate :
    (expirationCandidates (daysFromCivil 2024 1 2)).getD 4 0 = daysFromCivil 2024 5 17 ∧
    (expirationCandidates (daysFromCivil 2024 1 2)).getD 5 0 = daysFromCivil 2024 5 17 ∧
    daysFromCivil 2024 12 20 ∉ expirationCandidates (daysFromCivil 2024 1 2) ∧
    thirdFridayOf 2024 12 = daysFromCivil 2024 12 20 := by
  refine ⟨by decide, by decide, by decide, by decide⟩

/-- Claim C5 (amended): the 12 candidate dates are the third Fridays (first
Friday on/after the 1st, plus 14 days) of the months containing
`as_of_date + 30*k` days for `k = 0, …, 11`; each candidate is a Friday lying
on day 15–21 of the month it was computed from, but consecutive `+30*k` steps
can hit the same month twice and skip a month entirely. -/
theorem expirationCandidates_are_thirdFridays (today : ℤ) :
    (expirationCandidates today).length = 12 ∧
    ∀ k : ℕ, k < 12 →
      (expirationCandidates today).getD k 0 =
          thirdFridayOf (yearOf (today + 30 * (k : ℤ))) (monthOf (today + 30 * (k : ℤ))) ∧
        weekday ((expirationCandidates today).getD k 0) = 4 ∧
        14 ≤ (expirationCandidates today).getD k 0 -
            daysFromCivil (yearOf (today + 30 * (k : ℤ))) (monthOf (today + 30 * (k : ℤ))) 1 ∧
        (expirationCandidates today).getD k 0 -
            daysFromCivil (yearOf (today + 30 * (k : ℤ))) (monthOf (today + 30 * (k : ℤ))) 1 ≤ 20 := by
  refine ⟨rfl, ?_⟩
  intro k hk
  interval_cases k <;>
    exact ⟨rfl, weekday_thirdFridayOf _ _, (thirdFridayOf_offset _ _).1,
      (thirdFridayOf_offset _ _).2⟩

/-- Witness for C5 (amended) at `today` = 2024-01-02, `k = 3`. -/
theorem expirationCandidates_are_thirdFridays_witness :
    (expirationCandidates (daysFromCivil 2024 1 2)).getD 3 0 =
        thirdFridayOf (yearOf (daysFromCivil 2024 1 2 + 30 * ((3 : ℕ) : ℤ)))
          (monthOf (daysFromCivil 2024 1 2 + 30 * ((3 : ℕ) : ℤ))) ∧
      weekday ((expirationCandidates (daysFromCivil 2024 1 2)).getD 3 0) = 4 :=
  ⟨((expirationCandidates_are_thirdFridays (daysFromCivil 2024 1 2)).2 3 (by norm_num)).1,
   ((expirationCandidates_are_thirdFridays (daysFromCivil 2024 1 2)).2 3 (by norm_num)).2.1⟩

/-- Claim C6: the Expiration Resolver returns a date that is a third Friday
(of the month it was computed for), occurs in the candidate list, has minimal
absolute day-distance to `as_of_date + target_days_ahead` among the 12
candidates, and on ties the candidate encountered first in the list wins
(every earlier candidate has strictly larger distance). -/
theorem get_option_expiration_first_closest_thirdFriday (today days_target : ℤ) :
    (∃ y m, get_option_expiration_date today days_target = thirdFridayOf y m) ∧
    weekday (get_option_expiration_date today days_target) = 4 ∧
    get_option_expiration_date today days_target ∈ expirationCandidates today ∧
    ∃ i : ℕ, i < (expirationCandidates today).length ∧
      (expirationCandidates today).getD i 0 = get_option_expiration_date today days_target ∧
      (∀ j : ℕ, j < i →
        |get_option_expiration_date today days_target - (today + days_target)| <
          |(expirationCandidates today).getD j 0 - (today + days_target)|) ∧
      ∀ j : ℕ, j < (expirationCandidates today).length →
        |get_option_expiration_date today days_target - (today + days_target)| ≤
          |(expirationCandidates today).getD j 0 - (today + days_target)| := by
  obtain ⟨e, rest, hlist⟩ : ∃ e rest, expirationCandidates today = e :: rest := ⟨_, _, rfl⟩
  have hr : get_option_expiration_date today days_target =
      minAbsAux (today + days_target) e rest := by
    rw [get_option_expiration_date, hlist]
    rfl
  have hmem : get_option_expiration_date today days_target ∈ expirationCandidates today := by
    rw [hr, hlist]
    exact minAbsAux_mem _ rest e
  have hym : ∃ y m, get_option_expiration_date today days_target = thirdFridayOf y m := by
    have hmap : get_option_expiration_date today days_target ∈
        (List.range 12).map (fun mo => thirdFridayOfMonthOf (today + 30 * (mo : ℤ))) := hmem
    obtain ⟨a, _, ha⟩ := List.mem_map.mp hmap
    exact ⟨yearOf (today + 30 * (a : ℤ)), monthOf (today + 30 * (a : ℤ)), ha.symm⟩
  refine ⟨hym, ?_, hmem, ?_⟩
  · obtain ⟨y, m, hy⟩ := hym
    rw [hy]
    exact weekday_thirdFridayOf y m
  · obtain ⟨i, hi, hg, hpre, hall⟩ := minAbsAux_spec (today + days_target) rest e
    refine ⟨i, ?_, ?_, ?_, ?_⟩
    · rw [hlist]; exact hi
    · rw [hlist, hr]; exact hg
    · intro j hj
      rw [hlist, hr]
      exact hpre j hj
    · intro j hj
      rw [hlist, hr]
      exact hall j (by rw [hlist] at hj; exact hj)

/-- Witness for C6 at `as_of_date` = 2024-01-02, `target_days_ahead` = 90. -/
theorem get_option_expiration_first_closest_thirdFriday_witness :
    get_option_expiration_date (daysFromCivil 2024 1 2) 90 ∈
      expirationCandidates (daysFromCivil 2024 1 2) ∧
    weekday (get_option_expiration_date (daysFromCivil 2024 1 2) 90) = 4 :=
  ⟨(get_option_expiration_first_closest_thirdFriday (daysFromCivil 2024 1 2) 90).2.2.1,
   (get_option_expiration_first_closest_thirdFriday (daysFromCivil 2024 1 2) 90).2.1⟩

/-- Claim C1 counterexample: `generate_options_for_stock` performs no input
validation at all — called with the non-positive reference price `-5.0` it does
not reject, it returns a full 8-candidate list whose first strike is the
nonsensical value `-5`. -/
theorem generate_accepts_negative_price :
    (generate_options_for_stock "ABC" (-5) (daysFromCivil 2024 1 2)).length = 8 ∧
    ((generate_options_for_stock "ABC" (-5) (daysFromCivil 2024 1 2)).getD 0 default).Strike
      = -5 := by
  constructor
  · rfl
  · show round_strike (-5) (-5) = -5
    norm_num [round_strike, pyround]

/-- Claim C1 (amended): the generator never rejects: for every reference
price, including non-positive ones, it produces the full list of 8 candidates,
candidate 1 carrying `round_strike(price, price)` as its strike. -/
theorem generate_never_rejects (symbol : String) (price : ℚ) (today : ℤ)
    (hp : price ≤ 0) :
    (generate_options_for_stock symbol price today).length = 8 ∧
    ((generate_options_for_stock symbol price today).getD 0 default).Strike =
      round_strike price price :=
  ⟨rfl, rfl⟩

/-- Witness for C1 (amended) at symbol "ABC", price `-5`, 2024-01-02. -/
theorem generate_never_rejects_witness :
    (generate_options_for_stock "ABC" (-5) (daysFromCivil 2024 1 2)).length = 8 ∧
    ((generate_options_for_stock "ABC" (-5) (daysFromCivil 2024 1 2)).getD 0 default).Strike =
      round_strike (-5) (-5) :=
  generate_never_rejects "ABC" (-5) (daysFromCivil 2024 1 2) (by norm_num)

/-- Claim C2: for every symbol, positive price and as-of date the generated
sequence has exactly 8 records, their `Option_Num` fields are 1,2,3,4,5,6,7,8
in that order, and every record has `Type` "Put" and empty `Bid`, `Ask`, `Mid`
and `Notes` fields. -/
theorem generate_eight_put_records (symbol : String) (price : ℚ) (today : ℤ)
    (hp : 0 < price) :
    (generate_options_for_stock symbol price today).length = 8 ∧
    (generate_options_for_stock symbol price today).map (fun r => r.Option_Num) =
      [1, 2, 3, 4, 5, 6, 7, 8] ∧
    (generate_options_for_stock symbol price today).all
      (fun r => r.Type' == "Put" && (r.Bid == "" && (r.Ask == "" && (r.Mid == "" &&
        r.Notes == "")))) = true :=
  ⟨rfl, rfl, rfl⟩

/-- Witness for C2 at symbol "ABC", price 50, 2024-01-02. -/
theorem generate_eight_put_records_witness :
    (generate_options_for_stock "ABC" 50 (daysFromCivil 2024 1 2)).length = 8 ∧
    (generate_options_for_stock "ABC" 50 (daysFromCivil 2024 1 2)).map
      (fun r => r.Option_Num) = [1, 2, 3, 4, 5, 6, 7, 8] ∧
    (generate_options_for_stock "ABC" 50 (daysFromCivil 2024 1 2)).all
      (fun r => r.Type' == "Put" && (r.Bid == "" && (r.Ask == "" && (r.Mid == "" &&
        r.Notes == "")))) = true :=
  generate_eight_put_records "ABC" 50 (daysFromCivil 2024 1 2) (by norm_num)

/-- Claim C9: the output is a pure function of (symbol, price, as-of date):
two invocations whose ambient clock reads all return the same date `d` produce
identical record lists, equal to `generate_options_for_stock symbol price d` —
there is no hidden state or entropy source. -/
theorem generate_pure_function_of_inputs (symbol : String) (price : ℚ) (d : ℤ)
    (a1 a2 a3 a4 a5 b1 b2 b3 b4 b5 : ℤ)
    (ha1 : a1 = d) (ha2 : a2 = d) (ha3 : a3 = d) (ha4 : a4 = d) (ha5 : a5 = d)
    (hb1 : b1 = d) (hb2 : b2 = d) (hb3 : b3 = d) (hb4 : b4 = d) (hb5 : b5 = d) :
    generate_options_for_stock_clocked symbol price a1 a2 a3 a4 a5 =
      generate_options_for_stock_clocked symbol price b1 b2 b3 b4 b5 ∧
    generate_options_for_stock_clocked symbol price a1 a2 a3 a4 a5 =
      generate_options_for_stock symbol price d := by
  subst ha1 ha2 ha3 ha4 ha5 hb1 hb2 hb3 hb4 hb5
  exact ⟨rfl, rfl⟩

/-- Witness for C9 at symbol "XYZ", price 100, all clock reads 2024-03-15. -/
theorem generate_pure_function_of_inputs_witness :
    generate_options_for_stock_clocked "XYZ" 100 (daysFromCivil 2024 3 15)
        (daysFromCivil 2024 3 15) (daysFromCivil 2024 3 15) (daysFromCivil 2024 3 15)
        (daysFromCivil 2024 3 15) =
      generate_options_for_stock_clocked "XYZ" 100 (daysFromCivil 2024 3 15)
        (daysFromCivil 2024 3 15) (daysFromCivil 2024 3 15) (daysFromCivil 2024 3 15)
        (daysFromCivil 2024 3 15) ∧
    generate_options_for_stock_clocked "XYZ" 100 (daysFromCivil 2024 3 15)
        (daysFromCivil 2024 3 15) (daysFromCivil 2024 3 15) (daysFromCivil 2024 3 15)
        (daysFromCivil 2024 3 15) =
      generate_options_for_stock "XYZ" 100 (daysFromCivil 2024 3 15) :=
  generate_pure_function_of_inputs "XYZ" 100 (daysFromCivil 2024 3 15)
    _ _ _ _ _ _ _ _ _ _ rfl rfl rfl rfl rfl rfl rfl rfl rfl rfl

/-- Claim C7: the Wildcard Selector computes
`s = (day_of_year * sum_of_character_codes) mod 6` (a value in `[0, 6)`) and
returns the pair formed by indexing the fixed menus
`[0.95, 0.90, 0.82, 0.75, 0.65, 0.55]` and `[60, 90, 120, 150, 180, 210]`
both at that same `s`; the index used for the days menu,
`(day_of_year * ticker_sum) mod len(days_options)`, is numerically identical
to `s` because the menu length is 6. -/
theorem select_wildcard_menus_same_index (today : ℤ) (symbol : String)
    (hs : symbol ≠ "") :
    0 ≤ (dayOfYear today * tickerSum symbol) % 6 ∧
    (dayOfYear today * tickerSum symbol) % 6 < 6 ∧
    select_wildcard today symbol =
      (([95/100, 90/100, 82/100, 75/100, 65/100, 55/100] : List ℚ).getD
          ((dayOfYear today * tickerSum symbol) % 6).toNat 0,
        ([60, 90, 120, 150, 180, 210] : List ℤ).getD
          ((dayOfYear today * tickerSum symbol) % 6).toNat 0) ∧
    (dayOfYear today * tickerSum symbol) % 6 =
      (dayOfYear today * tickerSum symbol) % (days_options.length : ℤ) :=
  ⟨Int.emod_nonneg _ (by norm_num),
   Int.emod_lt_of_pos _ (by norm_num), rfl, rfl⟩

/-- Witness for C7 at 2024-03-15, symbol "XYZ". -/
theorem select_wildcard_menus_same_index_witness :
    0 ≤ (dayOfYear (daysFromCivil 2024 3 15) * tickerSum "XYZ") % 6 ∧
    (dayOfYear (daysFromCivil 2024 3 15) * tickerSum "XYZ") % 6 < 6 ∧
    select_wildcard (daysFromCivil 2024 3 15) "XYZ" =
      (([95/100, 90/100, 82/100, 75/100, 65/100, 55/100] : List ℚ).getD
          ((dayOfYear (daysFromCivil 2024 3 15) * tickerSum "XYZ") % 6).toNat 0,
        ([60, 90, 120, 150, 180, 210] : List ℤ).getD
          ((dayOfYear (daysFromCivil 2024 3 15) * tickerSum "XYZ") % 6).toNat 0) ∧
    (dayOfYear (daysFromCivil 2024 3 15) * tickerSum "XYZ") % 6 =
      (dayOfYear (daysFromCivil 2024 3 15) * tickerSum "XYZ") % (days_options.length : ℤ) :=
  select_wildcard_menus_same_index (daysFromCivil 2024 3 15) "XYZ" (by decide)

/-- Claim C8 counterexample: on 2024-01-05 with symbol "A" the wildcard seed
is 1, so `otm_fraction` is 0.90, but candidate 8's description reads
"Random - 9% OTM": the program's `int((1 - 0.90) * 100)` truncates the
binary64 value `9.999999999999998` to 9, while the claim's formula
`round((1 - 0.90) * 100)` gives 10. -/
theorem wildcard_description_truncates_not_rounds :
    (select_wildcard (daysFromCivil 2024 1 5) "A").1 = 90/100 ∧
    ((generate_options_for_stock "A" 50 (daysFromCivil 2024 1 5)).getD 7 default).Description =
      "Random - 9% OTM" ∧
    round ((1 - (90/100 : ℚ)) * 100) = (10 : ℤ) ∧
    ("Random - 9% OTM" : String) ≠ "Random - 10% OTM" := by
  have hidx : ((dayOfYear (daysFromCivil 2024 1 5) * tickerSum "A") % 6).toNat = 1 := by
    decide
  have h1 : (select_wildcard (daysFromCivil 2024 1 5) "A").1 = 90/100 := by
    show otm_levels.getD
      ((dayOfYear (daysFromCivil 2024 1 5) * tickerSum "A") % 6).toNat 0 = 90/100
    rw [hidx]
    rfl
  refine ⟨h1, ?_, ?_, by decide⟩
  · show "Random - " ++
      toString (wildcardPct ((select_wildcard (daysFromCivil 2024 1 5) "A").1)) ++ "% OTM" =
      "Random - 9% OTM"
    rw [h1, wildcardPct_90]
    rfl
  · rw [round_eq]
    norm_num

/-- Claim C8 (amended): candidate 8's description embeds the percentage
`int((1 - otm_fraction) * 100)` computed in binary64 floating point, which for
the six menu values gives 5, 9, 18, 25, 35 and 44 — matching
`round((1 - otm_fraction) * 100)` (5, 10, 18, 25, 35, 45) for four entries but
one below it for `otm_fraction` 0.90 (9, not 10) and 0.55 (44, not 45). -/
theorem wildcard_description_truncated_pct (symbol : String) (price : ℚ) (today : ℤ) :
    ((generate_options_for_stock symbol price today).getD 7 default).Description =
      "Random - " ++ toString (wildcardPct ((select_wildcard today symbol).1)) ++ "% OTM" ∧
    otm_levels.map wildcardPct = [5, 9, 18, 25, 35, 44] ∧
    otm_levels.map (fun otm => round ((1 - otm) * 100)) = [5, 10, 18, 25, 35, 45] :=
  ⟨rfl, otm_levels_pct, by norm_num [otm_levels, round_eq]⟩

/-- Claim C4 counterexample: in the scenario ("ABC", 50.0, 2024-01-02)
candidate 2's strike is not 42.5 — the reference price 50 sits in the
1.0-increment tier and Python's `round(42.5)` rounds half to even, so the
strike is 42.0. -/
theorem scenario_candidate2_strike_not_42_5 :
    ((generate_options_for_stock "ABC" 50 (daysFromCivil 2024 1 2)).getD 1 default).Strike ≠
      85/2 := by
  show round_strike 50 (50 * (85/100)) ≠ 85/2
  norm_num [round_strike, pyround]

/-- Claim C4 (amended): for ("ABC", 50.0, 2024-01-02) candidates 1–3 have
strikes 50.0, 42.0 (not 42.5: increment 1.0 and round-half-to-even) and 35.0,
and all three carry expiration 2024-03-15, the candidate third Friday closest
to 2024-01-02 + 90 days (2024-04-01): 17 days away, against 18 for the other
contender 2024-04-19. -/
theorem scenario_strikes_and_expirations :
    ((generate_options_for_stock "ABC" 50 (daysFromCivil 2024 1 2)).getD 0 default).Strike
        = 50 ∧
    ((generate_options_for_stock "ABC" 50 (daysFromCivil 2024 1 2)).getD 1 default).Strike
        = 42 ∧
    ((generate_options_for_stock "ABC" 50 (daysFromCivil 2024 1 2)).getD 2 default).Strike
        = 35 ∧
    ((generate_options_for_stock "ABC" 50 (daysFromCivil 2024 1 2)).getD 0 default).Expiration
        = "2024-03-15" ∧
    ((generate_options_for_stock "ABC" 50 (daysFromCivil 2024 1 2)).getD 1 default).Expiration
        = "2024-03-15" ∧
    ((generate_options_for_stock "ABC" 50 (daysFromCivil 2024 1 2)).getD 2 default).Expiration
        = "2024-03-15" ∧
    get_option_expiration_date (daysFromCivil 2024 1 2) 90 = daysFromCivil 2024 3 15 ∧
    ((expirationCandidates (daysFromCivil 2024 1 2)).all
      (fun c => decide (|daysFromCivil 2024 3 15 - (daysFromCivil 2024 1 2 + 90)| ≤
        |c - (daysFromCivil 2024 1 2 + 90)|))) = true := by
  refine ⟨?_, ?_, ?_, by decide, by decide, by decide, by decide, by decide⟩
  · show round_strike 50 50 = 50
    norm_num [round_strike, pyround]
  · show round_strike 50 (50 * (85/100)) = 42
    norm_num [round_strike, pyround]
  · show round_strike 50 (50 * (70/100)) = 35
    norm_num [round_strike, pyround]

end EquityData
